import Mathlib

/-!
Verification development for the hybrid vector-store subsystem
(src/vector_store/: base.py, faiss_store.py, qdrant_store.py,
cost_monitor.py, hybrid_manager.py).

Python floats are embedded as rationals, Python ints as Nat/Int,
Python dicts as insertion-ordered association lists (replacement keeps
the original position, new keys append at the end, exactly like CPython
dicts).  Fallible paths are embedded with explicit error values.
-/

/-- Embedded Python scalar values (the value shapes the vector-store code
actually compares in filters: strings and integers). -/
inductive PScalar where
  | str : String → PScalar
  | intv : Int → PScalar
  deriving DecidableEq, Repr

/-- Embedded Python values occurring in document metadata and filter maps:
a scalar or a list of scalars (lists of lists do not occur in the data
model: tags and filter value-sets are lists of strings). -/
inductive PVal where
  | scalar : PScalar → PVal
  | arr : List PScalar → PVal
  deriving DecidableEq, Repr

/-- A Python dict with string keys, as used for documents / metadata /
payloads / filter maps. -/
abbrev PDict := List (String × PVal)

/-- Python dict lookup (first binding wins; keys are unique by
construction of dict_set). -/
def dict_get {κ α : Type} [DecidableEq κ] : List (κ × α) → κ → Option α
  | [], _ => none
  | (k, v) :: rest, key => if k = key then some v else dict_get rest key

/-- Python dict assignment: replacing an existing key keeps its position,
a new key is appended at the end (CPython insertion-order semantics). -/
def dict_set {κ α : Type} [DecidableEq κ] : List (κ × α) → κ → α → List (κ × α)
  | [], key, val => [(key, val)]
  | (k, v) :: rest, key, val =>
      if k = key then (key, val) :: rest else (k, v) :: dict_set rest key val

/-- doc.get(key, "") restricted to string values, as the stores use it for
full_name / description / category. -/
def dict_get_str (d : PDict) (k : String) : String :=
  match dict_get d k with
  | some (.scalar (.str s)) => s
  | _ => ""

/-- doc.get('id', api_name) — the document id used as the store key
(faiss_store.py line 115, qdrant_store.py line 125); ids are strings. -/
def doc_id_of (d : PDict) : String :=
  match dict_get d "id" with
  | some (.scalar (.str s)) => s
  | _ => dict_get_str d "full_name"

/-- The two backends (base.py VectorBackend). -/
inductive VectorBackend where
  | faiss
  | qdrant
  deriving DecidableEq, Repr

/-- base.py SearchResult, keeping the fields the specification's claims
inspect (id, score, metadata); content / api_name / category / parameters
are projections of the metadata dict and are not modelled separately. -/
structure SearchResult where
  id : String
  score : ℚ
  metadata : PDict
  deriving DecidableEq, Repr

/-- base.py VectorStore._normalize_score: clamp for FAISS (cosine
similarity, higher is better); 1 - score clamped for Qdrant (treated as
a distance). -/
def normalize_score (backend : VectorBackend) (score : ℚ) : ℚ :=
  match backend with
  | .faiss => max 0 (min 1 score)
  | .qdrant => max 0 (min 1 (1 - score))

/-- The descending-score order used by the stores' result sorting
(sort(key=score, reverse=True)). -/
def score_ge (a b : SearchResult) : Prop := b.score ≤ a.score

instance : DecidableRel score_ge := fun a b =>
  inferInstanceAs (Decidable (b.score ≤ a.score))

instance : IsTotal SearchResult score_ge := ⟨fun a b => le_total b.score a.score⟩

instance : IsTrans SearchResult score_ge := ⟨fun _ _ _ h1 h2 => le_trans h2 h1⟩

/-- Python's stable sort by score descending. -/
def sort_by_score_desc (l : List SearchResult) : List SearchResult :=
  l.insertionSort score_ge

/-- faiss_store.py FAISSStore._apply_filters (identical to
qdrant_store.py QdrantStore._apply_payload_filters): every filter key
must be present; a list filter value means membership, a scalar filter
value means equality; an absent key fails.  This is also exactly the
match condition stated by claim C5. -/
def apply_filters (filters : PDict) (metadata : PDict) : Bool :=
  filters.all fun kv =>
    match dict_get metadata kv.1 with
    | none => false
    | some mv =>
        match kv.2 with
        | .arr vs =>
            match mv with
            | .scalar s => vs.contains s
            | .arr _ => false
        | .scalar _ => mv = kv.2

/-- qdrant_store.py QdrantStore._build_qdrant_filter, conditions list:
one FieldCondition(key, MatchValue(v)) per scalar filter value, and one
per element of a list filter value.  All conditions end up in a single
must clause. -/
def build_qdrant_conditions (filters : PDict) : List (String × PScalar) :=
  filters.foldr
    (fun kv acc =>
      match kv.2 with
      | .arr vs => vs.map (fun v => (kv.1, v)) ++ acc
      | .scalar s => (kv.1, s) :: acc)
    []

/-- Model of the external Qdrant service's evaluation of the filter the
store builds: Filter(must=conds) is the conjunction of its conditions,
a MatchValue condition on an absent payload field fails, and
_build_qdrant_filter returns None (no filtering at all) when the
conditions list is empty. -/
def qdrant_filter_passes (filters : PDict) (payload : PDict) : Bool :=
  match build_qdrant_conditions filters with
  | [] => true
  | conds => conds.all fun kv => dict_get payload kv.1 = some (.scalar kv.2)

/-- qdrant_store.py QdrantStore.search given the collection's points:
the service returns the points passing the built filter (the `if filters`
guard makes an empty filter dict skip filter construction, which this
model absorbs since an empty dict yields no conditions); each hit's raw
score is normalized with the Qdrant branch of _normalize_score.  The hit
order is the service's order: the code does not re-sort. -/
def qdrant_search_results (points : List (String × ℚ × PDict)) (filters : PDict) :
    List SearchResult :=
  (points.filter fun p => qdrant_filter_passes filters p.2.2).map
    fun p => { id := p.1, score := normalize_score .qdrant p.2.1, metadata := p.2.2 }

/-- State of faiss_store.py FAISSStore: the index's vector count
(faiss_index.ntotal), the metadata store, both id/position mappings and
the fuzzy-name structures.  Embedding vectors themselves are not modelled
(no claim inspects vector contents), only how many rows the index holds. -/
structure FAISSState where
  ntotal : ℕ
  metadata_store : List (String × PDict)
  id_to_index : List (String × ℕ)
  index_to_id : List (ℕ × String)
  api_names : List String
  api_name_to_id : List (String × String)
  deriving DecidableEq, Repr

/-- A freshly initialized FAISS store (empty index of the configured
dimension, empty mappings). -/
def faiss_empty : FAISSState :=
  { ntotal := 0, metadata_store := [], id_to_index := [], index_to_id := []
    api_names := [], api_name_to_id := [] }

/-- First per-document loop of faiss_store.py FAISSStore.add_documents
(lines 104-124): store metadata under the document id (dict assignment,
so an existing id's content is replaced) and extend the fuzzy-name
structures when full_name is nonempty. -/
def faiss_add_meta_step (s : FAISSState) (doc : PDict) : FAISSState :=
  let api_name := dict_get_str doc "full_name"
  let did := doc_id_of doc
  let s := { s with metadata_store := dict_set s.metadata_store did doc }
  if api_name ≠ "" then
    { s with api_names := s.api_names ++ [api_name]
             api_name_to_id := dict_set s.api_name_to_id api_name did }
  else s

/-- Second per-document loop of add_documents (lines 138-141): record
id ↔ position mappings for the freshly appended rows, positions starting
at the pre-add ntotal. -/
def faiss_add_mapping_step (start : ℕ) (s : FAISSState) (idoc : ℕ × PDict) :
    FAISSState :=
  let did := doc_id_of idoc.2
  { s with id_to_index := dict_set s.id_to_index did (start + idoc.1)
           index_to_id := dict_set s.index_to_id (start + idoc.1) did }

/-- faiss_store.py FAISSStore.add_documents (lines 94-151): empty batches
return immediately; otherwise metadata/name structures are updated per
document, one embedding row per document is appended to the index
(ntotal grows by the batch length — the index has no notion of ids, rows
are only ever appended), and the id mappings are updated. -/
def faiss_add_documents (docs : List PDict) (st : FAISSState) : FAISSState :=
  if docs.isEmpty then st
  else
    let st1 := docs.foldl faiss_add_meta_step st
    let start := st1.ntotal
    let st2 := { st1 with ntotal := st1.ntotal + docs.length }
    docs.enum.foldl (faiss_add_mapping_step start) st2

/-- faiss_store.py FAISSStore.get_stats: total_vectors is the index's
ntotal. -/
def faiss_total_vectors (st : FAISSState) : ℕ := st.ntotal

/-- Per-hit processing of faiss_store.py FAISSStore.search (lines
170-196): the raw index response is a list of (score, position) pairs;
position -1 is skipped, the position is resolved through index_to_id,
the id must be nonempty (Python truthiness of `not doc_id`) and present
in the metadata store, a nonempty filter dict must pass _apply_filters,
and the score is normalized with the FAISS branch of _normalize_score. -/
def faiss_hit_to_result (st : FAISSState) (filters : PDict) (hit : ℚ × Int) :
    Option SearchResult :=
  if hit.2 = -1 then none
  else
    match dict_get st.index_to_id hit.2.toNat with
    | none => none
    | some did =>
        if did = "" then none
        else
          match dict_get st.metadata_store did with
          | none => none
          | some md =>
              if filters ≠ [] ∧ ¬ apply_filters filters md then none
              else some { id := did, score := normalize_score .faiss hit.1, metadata := md }

/-- faiss_store.py FAISSStore.search (lines 153-200) given the raw index
response: process every hit, sort by score descending, truncate to
top_k.  (The preceding embedding of the query and the 2×top_k over-fetch
request only determine the raw response, which this model takes as
input.) -/
def faiss_search_results (st : FAISSState) (hits : List (ℚ × Int))
    (filters : PDict) (top_k : ℕ) : List SearchResult :=
  (sort_by_score_desc (hits.filterMap (faiss_hit_to_result st filters))).take top_k

/-- One step of the semantic loop of _combine_results (faiss_store.py
lines 277-279, identical in qdrant_store.py lines 342-344): weight the
score and store the result under its id (replacement keeps dict
position). -/
def combine_sem_step (semantic_weight : ℚ) (m : List (String × SearchResult))
    (r : SearchResult) : List (String × SearchResult) :=
  dict_set m r.id { r with score := r.score * semantic_weight }

/-- One step of the fuzzy loop of _combine_results (faiss_store.py lines
282-288): an id already present gets the weighted fuzzy score added to
its stored score; a new id is inserted with the weighted fuzzy score. -/
def combine_fuzzy_step (fuzzy_weight : ℚ) (m : List (String × SearchResult))
    (r : SearchResult) : List (String × SearchResult) :=
  match dict_get m r.id with
  | some r0 => dict_set m r.id { r0 with score := r0.score + r.score * fuzzy_weight }
  | none => dict_set m r.id { r with score := r.score * fuzzy_weight }

/-- faiss_store.py FAISSStore._combine_results (lines 270-294), identical
to qdrant_store.py QdrantStore._combine_results (lines 335-359): build
the id-keyed result map from the semantic then the fuzzy results, then
sort the map's values by combined score descending. -/
def combine_results (semantic_results fuzzy_results : List SearchResult)
    (semantic_weight fuzzy_weight : ℚ) : List SearchResult :=
  let m1 := semantic_results.foldl (combine_sem_step semantic_weight) []
  let m2 := fuzzy_results.foldl (combine_fuzzy_step fuzzy_weight) m1
  sort_by_score_desc (m2.map Prod.snd)

/-- cost_monitor.py CostEvent. -/
inductive CostEvent where
  | search
  | insert
  | update
  | storage
  deriving DecidableEq, Repr

/-- cost_monitor.py CostMetrics.  Counter fields are Python ints
(incremented by nonnegative call-site counts), storage_mb and the cost
estimate are floats, last_updated a timestamp. -/
structure CostMetrics where
  total_searches : ℕ
  total_inserts : ℕ
  total_updates : ℕ
  storage_mb : ℚ
  estimated_monthly_cost : ℚ
  last_updated : ℚ
  deriving DecidableEq, Repr

/-- cost_monitor.py CostThresholds. -/
structure CostThresholds where
  max_monthly_cost : ℚ
  warning_threshold : ℚ
  fallback_threshold : ℚ
  search_cost_per_1k : ℚ
  storage_cost_per_gb : ℚ
  insert_cost_per_1k : ℚ
  deriving DecidableEq, Repr

/-- State of cost_monitor.py CostMonitor.  The registered warning and
fallback callbacks are modelled as opaque tokens so that "all registered
callbacks are invoked" is expressible; invoking them never mutates the
monitor (the hybrid manager's fallback callback mutates manager state,
modelled separately). -/
structure CostMonitorState where
  metrics : CostMetrics
  thresholds : CostThresholds
  warning_callbacks : List ℕ
  fallback_callbacks : List ℕ
  deriving DecidableEq, Repr

/-- Counter update of cost_monitor.py CostMonitor.track_event (lines
90-97): SEARCH / INSERT / UPDATE add count to their counter; STORAGE
assigns size_mb to storage_mb. -/
def apply_cost_event (event : CostEvent) (count : ℕ) (size_mb : ℚ)
    (m : CostMetrics) : CostMetrics :=
  match event with
  | .search => { m with total_searches := m.total_searches + count }
  | .insert => { m with total_inserts := m.total_inserts + count }
  | .update => { m with total_updates := m.total_updates + count }
  | .storage => { m with storage_mb := size_mb }

/-- seconds in the 30-day month used for extrapolation
(cost_monitor.py lines 112-113). -/
def seconds_in_month : ℚ := 30 * 24 * 3600

/-- cost_monitor.py lines 116-120: extrapolation multiplier from the time
since last_updated, floored at one hour; 1 when no time has elapsed. -/
def usage_multiplier (elapsed : ℚ) : ℚ :=
  if 0 < elapsed then seconds_in_month / max elapsed 3600 else 1

/-- cost_monitor.py CostMonitor._update_estimated_cost (lines 108-130):
extrapolated monthly search/insert counts priced per 1000 operations,
plus storage priced per GB (storage_mb / 1024). -/
def update_estimated_cost (m : CostMetrics) (t : CostThresholds) (now : ℚ) : ℚ :=
  let mult := usage_multiplier (now - m.last_updated)
  (m.total_searches * mult / 1000) * t.search_cost_per_1k
    + (m.total_inserts * mult / 1000) * t.insert_cost_per_1k
    + (m.storage_mb / 1024) * t.storage_cost_per_gb

/-- Which callback class a threshold check fires. -/
inductive CostFire where
  | fallback
  | warning
  deriving DecidableEq, Repr

/-- cost_monitor.py CostMonitor._check_thresholds (lines 132-139): the
division by max_monthly_cost raises ZeroDivisionError when it is zero
(modelled as none); otherwise the fallback branch fires at
ratio ≥ fallback_threshold, the warning branch at
ratio ≥ warning_threshold. -/
def check_thresholds (est : ℚ) (t : CostThresholds) : Option (Option CostFire) :=
  if t.max_monthly_cost = 0 then none
  else
    let cr := est / t.max_monthly_cost
    some (if t.fallback_threshold ≤ cr then some .fallback
          else if t.warning_threshold ≤ cr then some .warning
          else none)

/-- Result of one track_event call: the post state, which callback class
fired (if any), the list of callbacks invoked, and whether the call
raised (only the zero-division in _check_thresholds can escape:
callback exceptions are caught in _trigger_warning/_trigger_fallback,
persistence errors in _save_metrics). -/
structure TrackResult where
  state : CostMonitorState
  fired : Option CostFire
  invoked : List ℕ
  raised : Bool
  deriving DecidableEq, Repr

/-- cost_monitor.py CostMonitor.track_event (lines 88-106): update the
counter, recompute the estimate, check thresholds (invoking every
registered callback of the fired class), then save — which stamps
last_updated with the current time.  If the threshold check raises,
the counters and estimate are already updated in place but last_updated
is not refreshed (the save never runs). -/
def track_event (event : CostEvent) (count : ℕ) (size_mb : ℚ) (now : ℚ)
    (st : CostMonitorState) : TrackResult :=
  let m1 := apply_cost_event event count size_mb st.metrics
  let m2 := { m1 with estimated_monthly_cost := update_estimated_cost m1 st.thresholds now }
  match check_thresholds m2.estimated_monthly_cost st.thresholds with
  | none =>
      { state := { st with metrics := m2 }, fired := none, invoked := [], raised := true }
  | some fire =>
      let invoked :=
        match fire with
        | some .fallback => st.fallback_callbacks
        | some .warning => st.warning_callbacks
        | none => []
      { state := { st with metrics := { m2 with last_updated := now } }
        fired := fire, invoked := invoked, raised := false }

/-- cost_monitor.py CostMonitor.get_cost_summary (lines 181-191): the
division by max_monthly_cost raises ZeroDivisionError when it is zero;
otherwise the summary carries the ratio and a coarse status label. -/
def get_cost_summary (st : CostMonitorState) : Option (ℚ × String) :=
  if st.thresholds.max_monthly_cost = 0 then none
  else
    let cr := st.metrics.estimated_monthly_cost / st.thresholds.max_monthly_cost
    let status :=
      if st.thresholds.fallback_threshold ≤ cr then "CRITICAL - Fallback triggered"
      else if st.thresholds.warning_threshold ≤ cr then "WARNING - Approaching limits"
      else if (1 : ℚ) / 2 ≤ cr then "MODERATE - Monitor usage"
      else "HEALTHY - Within limits"
    some (cr, status)

/-- cost_monitor.py CostMonitor.reset_metrics (lines 231-235): replace
the metrics with a zeroed CostMetrics stamped with the current time. -/
def reset_metrics (now : ℚ) (st : CostMonitorState) : CostMonitorState :=
  { st with metrics :=
      { total_searches := 0, total_inserts := 0, total_updates := 0
        storage_mb := 0, estimated_monthly_cost := 0, last_updated := now } }

/-- hybrid_manager.py FallbackReason. -/
inductive FallbackReason where
  | cost_threshold
  | qdrant_unavailable
  | performance_issues
  | manual_override
  deriving DecidableEq, Repr

/-- State of hybrid_manager.py HybridVectorManager: the active backend,
the optional fallback reason, whether the QdrantStore object exists
(qdrant_store is not None), what the two stores' health checks currently
report (inputs to health_check, never consulted by force_backend), and
the cost monitor.  Performance metrics are timing telemetry no claim
inspects and are omitted. -/
structure ManagerState where
  active : VectorBackend
  fallback_reason : Option FallbackReason
  qdrant_available : Bool
  qdrant_healthy : Bool
  faiss_healthy : Bool
  cost : CostMonitorState
  deriving DecidableEq, Repr

/-- hybrid_manager.py HybridVectorManager._on_cost_fallback (lines
276-284): switch to FAISS with reason COST_THRESHOLD — but only when the
active backend is currently Qdrant; firing while already on FAISS leaves
the state untouched. -/
def on_cost_fallback (ms : ManagerState) : ManagerState :=
  if ms.active = .qdrant then
    { ms with active := .faiss, fallback_reason := some .cost_threshold }
  else ms

/-- Effect of the cost monitor's callback invocation on the manager:
the fallback callback runs _on_cost_fallback, the warning callback only
logs. -/
def apply_cost_fire (fire : Option CostFire) (ms : ManagerState) : ManagerState :=
  match fire with
  | some .fallback => on_cost_fallback ms
  | _ => ms

/-- The manager's cost tracking step: run the monitor's track_event and
apply the fired callback to the manager itself (the manager registers
_on_cost_fallback as a fallback callback in __init__).  Returns the
updated manager and whether track_event raised. -/
def manager_track (event : CostEvent) (count : ℕ) (now : ℚ) (ms : ManagerState) :
    ManagerState × Bool :=
  let r := track_event event count 0 now ms.cost
  (apply_cost_fire r.fired { ms with cost := r.state }, r.raised)

/-- hybrid_manager.py HybridVectorManager._get_active_store (lines
136-140): Qdrant only when it is the active backend and the store object
exists, otherwise FAISS. -/
def get_active_store (ms : ManagerState) : VectorBackend :=
  if ms.active = .qdrant ∧ ms.qdrant_available then .qdrant else .faiss

/-- hybrid_manager.py HybridVectorManager.search (lines 163-199).  The
two stores' behaviours for this one call are inputs: some rs is a
successful return, none a raised exception.  The active store is
resolved before cost tracking; tracking happens only when the active
backend is Qdrant and may fire the fallback callback (mutating the
manager mid-call); if tracking raises or the dispatched store raises,
the except branch retries once against FAISS — but only if the active
backend, as mutated, still reads Qdrant — and returns an empty list
when that retry raises or no retry is made.  Returns the result list and
the post-call manager state. -/
def manager_search (now : ℚ) (qdrant_res faiss_res : Option (List SearchResult))
    (ms : ManagerState) : List SearchResult × ManagerState :=
  let dispatch := get_active_store ms
  let tracked := if ms.active = .qdrant then manager_track .search 1 now ms else (ms, false)
  let ms1 := tracked.1
  let except_branch : List SearchResult × ManagerState :=
    if ms1.active = .qdrant then ((faiss_res.getD []), ms1) else ([], ms1)
  if tracked.2 then except_branch
  else
    match (if dispatch = .qdrant then qdrant_res else faiss_res) with
    | some rs => (rs, ms1)
    | none => except_branch

/-- hybrid_manager.py HybridVectorManager.hybrid_search (lines 201-243):
structurally identical to search (dispatch to the active store's
hybrid_search, with the same cost tracking and single FAISS retry). -/
def manager_hybrid_search (now : ℚ)
    (qdrant_res faiss_res : Option (List SearchResult)) (ms : ManagerState) :
    List SearchResult × ManagerState :=
  manager_search now qdrant_res faiss_res ms

/-- hybrid_manager.py HybridVectorManager.add_documents (lines 142-161):
track an INSERT cost event when active on Qdrant (which may raise or
fire callbacks), then dispatch the add; the best-effort sync touches the
stores, never the manager state.  add_res is the dispatched store's
outcome (none = raised, caught by the surrounding try which returns
False). -/
def manager_add_documents (now : ℚ) (n_docs : ℕ) (add_res : Option Bool)
    (ms : ManagerState) : Bool × ManagerState :=
  let tracked := if ms.active = .qdrant then manager_track .insert n_docs now ms else (ms, false)
  let ms1 := tracked.1
  if tracked.2 then (false, ms1)
  else
    match add_res with
    | some ok => (ok, ms1)
    | none => (false, ms1)

/-- hybrid_manager.py HybridVectorManager.force_backend (lines 286-295):
switching to Qdrant fails only when the store object does not exist; no
health check is consulted.  The reason string "manual_override" maps to
FallbackReason.MANUAL_OVERRIDE, anything else clears the reason. -/
def force_backend (backend : VectorBackend) (reason : String) (ms : ManagerState) :
    ManagerState × Bool :=
  if backend = .qdrant ∧ ¬ ms.qdrant_available then (ms, false)
  else
    ({ ms with active := backend
               fallback_reason :=
                 if reason = "manual_override" then some .manual_override else none },
     true)

/-- Overall status labels of hybrid_manager.py health_check. -/
inductive HealthStatus where
  | healthy
  | degraded
  | unhealthy
  deriving DecidableEq, Repr

/-- hybrid_manager.py HybridVectorManager.health_check (lines 342-345):
on FAISS the overall status is healthy iff FAISS is; on Qdrant it is
healthy iff Qdrant is, else degraded when FAISS is available as
fallback, else unhealthy. -/
def health_check_status (active : VectorBackend) (faiss_ok qdrant_ok : Bool) :
    HealthStatus :=
  if active = .faiss then (if faiss_ok then .healthy else .unhealthy)
  else if qdrant_ok then .healthy
  else if faiss_ok then .degraded
  else .unhealthy

/-- A manager-level operation, for iterating call sequences (claim C3). -/
inductive ManagerOp where
  | search (now : ℚ) (qdrant_res faiss_res : Option (List SearchResult))
  | hybrid (now : ℚ) (qdrant_res faiss_res : Option (List SearchResult))
  | add (now : ℚ) (n_docs : ℕ) (add_res : Option Bool)

/-- Apply one manager operation to the manager state. -/
def apply_manager_op (ms : ManagerState) (op : ManagerOp) : ManagerState :=
  match op with
  | .search now q f => (manager_search now q f ms).2
  | .hybrid now q f => (manager_hybrid_search now q f ms).2
  | .add now n r => (manager_add_documents now n r ms).2

/-- Apply a sequence of manager operations in order. -/
def apply_manager_ops (ops : List ManagerOp) (ms : ManagerState) : ManagerState :=
  ops.foldl apply_manager_op ms

/-- Stated from claim C6's words, for comparison with the code: the
monthly estimate computed from the usage observed since last_updated
(the window's search and insert counts), extrapolated by
seconds_in_month / max(elapsed, 3600) (multiplier 1 when elapsed ≤ 0),
priced per 1000 operations, plus storage priced per GB. -/
def claimed_window_estimate (window_searches window_inserts : ℕ)
    (storage_mb : ℚ) (t : CostThresholds) (elapsed : ℚ) : ℚ :=
  let mult := if 0 < elapsed then seconds_in_month / max elapsed 3600 else 1
  (window_searches * mult / 1000) * t.search_cost_per_1k
    + (window_inserts * mult / 1000) * t.insert_cost_per_1k
    + (storage_mb / 1024) * t.storage_cost_per_gb

/-! ### Concrete fixtures used by witnesses and counterexamples -/

/-- Zeroed metrics stamped at time 0. -/
def metrics_zero : CostMetrics :=
  { total_searches := 0, total_inserts := 0, total_updates := 0
    storage_mb := 0, estimated_monthly_cost := 0, last_updated := 0 }

/-- A cost monitor with the repository's default thresholds
(max 50 USD, warn 0.8, fall back 0.9, 0.0004 / 0.25 / 0.002 unit costs)
and one registered callback of each kind. -/
def cm_quiet : CostMonitorState :=
  { metrics := metrics_zero
    thresholds :=
      { max_monthly_cost := 50, warning_threshold := 8/10, fallback_threshold := 9/10
        search_cost_per_1k := 1/2500, storage_cost_per_gb := 1/4, insert_cost_per_1k := 1/500 }
    warning_callbacks := [10], fallback_callbacks := [20] }

/-- A cost monitor whose fallback threshold is 0, so any tracked event
fires the fallback callbacks. -/
def cm_fire : CostMonitorState :=
  { metrics := metrics_zero
    thresholds :=
      { max_monthly_cost := 1, warning_threshold := 0, fallback_threshold := 0
        search_cost_per_1k := 0, storage_cost_per_gb := 0, insert_cost_per_1k := 0 }
    warning_callbacks := [10], fallback_callbacks := [20] }

/-- Manager on the remote backend, Qdrant object present and healthy,
quiet cost monitor. -/
def ms_remote : ManagerState :=
  { active := .qdrant, fallback_reason := none, qdrant_available := true
    qdrant_healthy := true, faiss_healthy := true, cost := cm_quiet }

/-- Manager on the local backend with no recorded reason; the Qdrant
store object exists but Qdrant reports unhealthy. -/
def ms_local : ManagerState :=
  { active := .faiss, fallback_reason := none, qdrant_available := true
    qdrant_healthy := false, faiss_healthy := true, cost := cm_quiet }

/-- Manager on the remote backend whose next tracked event fires the
cost fallback. -/
def ms_fire : ManagerState :=
  { active := .qdrant, fallback_reason := none, qdrant_available := true
    qdrant_healthy := true, faiss_healthy := true, cost := cm_fire }

/-- A concrete search result used as the FAISS backend's answer. -/
def faiss_answer : SearchResult := { id := "r1", score := 1/2, metadata := [] }

/-- First version of the claim C1 document. -/
def c1_doc_v1 : PDict :=
  [("id", .scalar (.str "doc1")), ("full_name", .scalar (.str "mesh.bevel")),
   ("description", .scalar (.str "Bevel v1"))]

/-- Second version of the claim C1 document: same id, new content. -/
def c1_doc_v2 : PDict :=
  [("id", .scalar (.str "doc1")), ("full_name", .scalar (.str "mesh.bevel")),
   ("description", .scalar (.str "Bevel v2"))]

/-- One semantic result with a full score of 1. -/
def c2_sem : List SearchResult := [{ id := "a", score := 1, metadata := [] }]

/-- Two fuzzy results carrying the same id (reachable: the FAISS
api_names list keeps duplicate entries, so rapidfuzz can return the same
name twice and both map to one document id). -/
def c2_fuzzy : List SearchResult :=
  [{ id := "a", score := 1, metadata := [] }, { id := "a", score := 1, metadata := [] }]

/-- Two Qdrant hits in the order the service returns them for a cosine
collection: by similarity, descending. -/
def c2_qpts : List (String × ℚ × PDict) := [("d1", 9/10, []), ("d2", 1/5, [])]

/-- A document used for the C5 witness store. -/
def c5_doc : PDict :=
  [("id", .scalar (.str "d5")), ("full_name", .scalar (.str "mesh.bevel")),
   ("category", .scalar (.str "mesh"))]

/-- A scalar filter matching c5_doc. -/
def filters_mesh : PDict := [("category", .scalar (.str "mesh"))]

/-- A filter whose set-of-values is empty — the C5 counterexample. -/
def filters_empty_arr : PDict := [("category", PVal.arr [])]

/-- One Qdrant point whose payload lacks the filtered field. -/
def c5_qpts : List (String × ℚ × PDict) := [("d1", 1, [])]

/-- Qdrant points for the C5 witness: payload is c5_doc. -/
def c5_qpts_match : List (String × ℚ × PDict) := [("d5", 1, c5_doc)]

/-- Thresholds for the C6 counterexample: only searches are priced
(1000 USD per 1k searches, i.e. unit cost 1), generous budget. -/
def c6_thr : CostThresholds :=
  { max_monthly_cost := 1000000, warning_threshold := 8/10, fallback_threshold := 9/10
    search_cost_per_1k := 1000, storage_cost_per_gb := 0, insert_cost_per_1k := 0 }

/-- Cost monitor for the C6 counterexample. -/
def cm_c6 : CostMonitorState :=
  { metrics := metrics_zero, thresholds := c6_thr
    warning_callbacks := [], fallback_callbacks := [] }

/-- Cost monitor holding 2 MB of recorded storage, for the C8
counterexample. -/
def cm_storage2 : CostMonitorState :=
  { metrics := { metrics_zero with storage_mb := 2 }
    thresholds := cm_quiet.thresholds
    warning_callbacks := [10], fallback_callbacks := [20] }

/-! ### Helper lemmas -/

theorem sorted_sort_by_score_desc (l : List SearchResult) :
    (sort_by_score_desc l).Sorted score_ge :=
  List.sorted_insertionSort score_ge l

theorem mem_sort_by_score_desc {r : SearchResult} {l : List SearchResult} :
    r ∈ sort_by_score_desc l ↔ r ∈ l :=
  (List.perm_insertionSort score_ge l).mem_iff

theorem normalize_score_nonneg (b : VectorBackend) (s : ℚ) :
    0 ≤ normalize_score b s := by
  cases b <;> exact le_max_left 0 _

theorem normalize_score_le_one (b : VectorBackend) (s : ℚ) :
    normalize_score b s ≤ 1 := by
  cases b <;> exact max_le (by norm_num) (min_le_left 1 _)

theorem dict_get_mem {κ α : Type} [DecidableEq κ] {m : List (κ × α)} {k : κ}
    {v : α} (h : dict_get m k = some v) : (k, v) ∈ m := by
  induction m with
  | nil => simp [dict_get] at h
  | cons hd tl ih =>
      rw [dict_get] at h
      by_cases hk : hd.1 = k
      · rw [if_pos hk] at h
        have hv : hd.2 = v := Option.some.inj h
        cases hd
        simp only at hk hv
        rw [← hk, ← hv]
        exact List.mem_cons_self _ _
      · rw [if_neg hk] at h
        exact List.mem_cons_of_mem _ (ih h)

theorem mem_dict_set {κ α : Type} [DecidableEq κ] {m : List (κ × α)} {k : κ}
    {v : α} {x : κ × α} (h : x ∈ dict_set m k v) : x = (k, v) ∨ x ∈ m := by
  induction m with
  | nil => simpa [dict_set] using h
  | cons hd tl ih =>
      rw [dict_set] at h
      by_cases hk : hd.1 = k
      · rw [if_pos hk] at h
        rcases List.mem_cons.mp h with h1 | h2
        · exact Or.inl h1
        · exact Or.inr (List.mem_cons_of_mem _ h2)
      · rw [if_neg hk] at h
        rcases List.mem_cons.mp h with h1 | h2
        · exact Or.inr (h1 ▸ List.mem_cons_self _ _)
        · rcases ih h2 with h3 | h4
          · exact Or.inl h3
          · exact Or.inr (List.mem_cons_of_mem _ h4)

theorem sem_fold_bound {ws : ℚ} (hws : 0 ≤ ws) :
    ∀ (sem : List SearchResult) (m : List (String × SearchResult)),
      (∀ e ∈ m, 0 ≤ e.2.score ∧ e.2.score ≤ ws) →
      (∀ r ∈ sem, 0 ≤ r.score ∧ r.score ≤ 1) →
      ∀ e ∈ sem.foldl (combine_sem_step ws) m, 0 ≤ e.2.score ∧ e.2.score ≤ ws := by
  intro sem
  induction sem with
  | nil => intro m hm _ e he; exact hm e he
  | cons r sem' ih =>
      intro m hm hs e he
      rw [List.foldl_cons] at he
      refine ih _ ?_ (fun r' hr' => hs r' (List.mem_cons_of_mem _ hr')) e he
      intro e' he'
      rcases mem_dict_set he' with h1 | h2
      · subst h1
        have hr := hs r (List.mem_cons_self _ _)
        exact ⟨mul_nonneg hr.1 hws, mul_le_of_le_one_left hws hr.2⟩
      · exact hm e' h2

theorem fuzzy_fold_bound {ws wf : ℚ} (hws : 0 ≤ ws) (hwf : 0 ≤ wf) :
    ∀ (fz : List SearchResult) (m : List (String × SearchResult)),
      (fz.map SearchResult.id).Nodup →
      (∀ r ∈ fz, 0 ≤ r.score ∧ r.score ≤ 1) →
      (∀ e ∈ m, (0 ≤ e.2.score ∧ e.2.score ≤ ws + wf) ∧
        (e.1 ∈ fz.map SearchResult.id → e.2.score ≤ ws)) →
      ∀ e ∈ fz.foldl (combine_fuzzy_step wf) m, 0 ≤ e.2.score ∧ e.2.score ≤ ws + wf := by
  intro fz
  induction fz with
  | nil => intro m _ _ hm e he; exact (hm e he).1
  | cons r fz' ih =>
      intro m hnd hf hm e he
      rw [List.foldl_cons] at he
      have hndtail : (fz'.map SearchResult.id).Nodup := by
        rw [List.map_cons, List.nodup_cons] at hnd
        exact hnd.2
      have hnotin : r.id ∉ fz'.map SearchResult.id := by
        rw [List.map_cons, List.nodup_cons] at hnd
        exact hnd.1
      have hr := hf r (List.mem_cons_self _ _)
      have hftail : ∀ r' ∈ fz', 0 ≤ r'.score ∧ r'.score ≤ 1 :=
        fun r' hr' => hf r' (List.mem_cons_of_mem _ hr')
      refine ih _ hndtail hftail ?_ e he
      intro e' he'
      rw [combine_fuzzy_step] at he'
      rcases hget : dict_get m r.id with _ | r0
      · rw [hget] at he'
        rcases mem_dict_set he' with h1 | h2
        · subst h1
          constructor
          · constructor
            · exact mul_nonneg hr.1 hwf
            · calc r.score * wf ≤ wf := mul_le_of_le_one_left hwf hr.2
                _ ≤ ws + wf := le_add_of_nonneg_left hws
          · intro hmem
            exact absurd hmem hnotin
        · refine ⟨(hm e' h2).1, fun hmem => (hm e' h2).2 ?_⟩
          rw [List.map_cons]
          exact List.mem_cons_of_mem _ hmem
      · rw [hget] at he'
        have hr0m : (r.id, r0) ∈ m := dict_get_mem hget
        have hr0 := hm (r.id, r0) hr0m
        have hr0ws : r0.score ≤ ws := hr0.2 (by rw [List.map_cons]; exact List.mem_cons_self _ _)
        rcases mem_dict_set he' with h1 | h2
        · subst h1
          dsimp only
          exact ⟨⟨add_nonneg hr0.1.1 (mul_nonneg hr.1 hwf),
              add_le_add hr0ws (mul_le_of_le_one_left hwf hr.2)⟩,
            fun hmem => absurd hmem hnotin⟩
        · refine ⟨(hm e' h2).1, fun hmem => (hm e' h2).2 ?_⟩
          rw [List.map_cons]
          exact List.mem_cons_of_mem _ hmem

theorem combine_results_sorted (sem fz : List SearchResult) (ws wf : ℚ) :
    (combine_results sem fz ws wf).Sorted score_ge :=
  sorted_sort_by_score_desc _

theorem combine_results_bound {sem fz : List SearchResult} {ws wf : ℚ}
    (hws : 0 ≤ ws) (hwf : 0 ≤ wf) (hsum : ws + wf ≤ 1)
    (hsem : ∀ r ∈ sem, 0 ≤ r.score ∧ r.score ≤ 1)
    (hfz : ∀ r ∈ fz, 0 ≤ r.score ∧ r.score ≤ 1)
    (hnd : (fz.map SearchResult.id).Nodup) :
    ∀ r ∈ combine_results sem fz ws wf, 0 ≤ r.score ∧ r.score ≤ 1 := by
  intro r hr
  rw [combine_results] at hr
  rw [mem_sort_by_score_desc] at hr
  rcases List.mem_map.mp hr with ⟨e, he, hre⟩
  have hm1 : ∀ e' ∈ sem.foldl (combine_sem_step ws) [], 0 ≤ e'.2.score ∧ e'.2.score ≤ ws :=
    sem_fold_bound hws sem [] (by intro e' he'; simp at he') hsem
  have hbound := fuzzy_fold_bound hws hwf fz _ hnd hfz
    (fun e' he' => ⟨⟨(hm1 e' he').1, le_trans (hm1 e' he').2 (le_add_of_nonneg_right hwf)⟩,
      fun _ => (hm1 e' he').2⟩) e he
  rw [← hre]
  exact ⟨hbound.1, le_trans hbound.2 hsum⟩

theorem apply_filters_nil (md : PDict) : apply_filters [] md = true := rfl

theorem faiss_hit_spec {st : FAISSState} {filters : PDict} {hit : ℚ × Int}
    {r : SearchResult} (h : faiss_hit_to_result st filters hit = some r) :
    apply_filters filters r.metadata = true ∧ r.score = normalize_score .faiss hit.1 := by
  rw [faiss_hit_to_result] at h
  by_cases h1 : hit.2 = -1
  · rw [if_pos h1] at h
    exact absurd h (by simp)
  · rw [if_neg h1] at h
    rcases hdg : dict_get st.index_to_id hit.2.toNat with _ | did
    · rw [hdg] at h
      exact absurd h (by simp)
    · rw [hdg] at h
      dsimp only at h
      by_cases h2 : did = ""
      · rw [if_pos h2] at h
        exact absurd h (by simp)
      · rw [if_neg h2] at h
        rcases hmd : dict_get st.metadata_store did with _ | md
        · rw [hmd] at h
          exact absurd h (by simp)
        · rw [hmd] at h
          dsimp only at h
          by_cases h3 : filters ≠ [] ∧ ¬ apply_filters filters md
          · rw [if_pos h3] at h
            exact absurd h (by simp)
          · rw [if_neg h3] at h
            have hr : r = { id := did, score := normalize_score .faiss hit.1, metadata := md } :=
              (Option.some.inj h).symm
            subst hr
            refine ⟨?_, rfl⟩
            by_cases h4 : filters = []
            · subst h4
              exact apply_filters_nil md
            · push_neg at h3
              simpa using h3 h4

theorem faiss_search_sorted (st : FAISSState) (hits : List (ℚ × Int))
    (filters : PDict) (top_k : ℕ) :
    (faiss_search_results st hits filters top_k).Sorted score_ge :=
  List.Pairwise.sublist (List.take_sublist _ _) (sorted_sort_by_score_desc _)

theorem faiss_search_mem {st : FAISSState} {hits : List (ℚ × Int)}
    {filters : PDict} {top_k : ℕ} {r : SearchResult}
    (h : r ∈ faiss_search_results st hits filters top_k) :
    apply_filters filters r.metadata = true ∧ 0 ≤ r.score ∧ r.score ≤ 1 := by
  rw [faiss_search_results] at h
  have h2 := mem_sort_by_score_desc.mp (List.mem_of_mem_take h)
  rcases List.mem_filterMap.mp h2 with ⟨hit, _, hsome⟩
  rcases faiss_hit_spec hsome with ⟨hf, hs⟩
  exact ⟨hf, hs ▸ ⟨normalize_score_nonneg _ _, normalize_score_le_one _ _⟩⟩

theorem qdrant_search_mem {pts : List (String × ℚ × PDict)} {filters : PDict}
    {r : SearchResult} (h : r ∈ qdrant_search_results pts filters) :
    qdrant_filter_passes filters r.metadata = true ∧ 0 ≤ r.score ∧ r.score ≤ 1 := by
  rw [qdrant_search_results] at h
  rcases List.mem_map.mp h with ⟨p, hp, hr⟩
  have hpass := (List.mem_filter.mp hp).2
  rw [← hr]
  exact ⟨hpass, normalize_score_nonneg _ _, normalize_score_le_one _ _⟩

theorem build_qdrant_conditions_cons (kv : String × PVal) (l : PDict) :
    build_qdrant_conditions (kv :: l) =
      (match kv.2 with
       | .arr vs => vs.map (fun v => (kv.1, v)) ++ build_qdrant_conditions l
       | .scalar s => (kv.1, s) :: build_qdrant_conditions l) := rfl

theorem mem_build_scalar {filters : PDict} {kv : String × PVal} {s : PScalar}
    (hkv : kv ∈ filters) (hs : kv.2 = .scalar s) :
    (kv.1, s) ∈ build_qdrant_conditions filters := by
  induction filters with
  | nil => simp at hkv
  | cons hd tl ih =>
      rw [build_qdrant_conditions_cons]
      rcases List.mem_cons.mp hkv with h1 | h2
      · subst h1
        rw [hs]
        exact List.mem_cons_self _ _
      · rcases hhd : hd.2 with s' | vs
        · exact List.mem_cons_of_mem _ (ih h2)
        · exact List.mem_append_right _ (ih h2)

theorem mem_build_arr {filters : PDict} {kv : String × PVal} {vs : List PScalar}
    {v : PScalar} (hkv : kv ∈ filters) (hvs : kv.2 = .arr vs) (hv : v ∈ vs) :
    (kv.1, v) ∈ build_qdrant_conditions filters := by
  induction filters with
  | nil => simp at hkv
  | cons hd tl ih =>
      rw [build_qdrant_conditions_cons]
      rcases List.mem_cons.mp hkv with h1 | h2
      · subst h1
        rw [hvs]
        exact List.mem_append_left _ (List.mem_map.mpr ⟨v, hv, rfl⟩)
      · rcases hhd : hd.2 with s' | vs'
        · exact List.mem_cons_of_mem _ (ih h2)
        · exact List.mem_append_right _ (ih h2)

theorem build_eq_nil {filters : PDict}
    (h : build_qdrant_conditions filters = []) :
    ∀ kv ∈ filters, kv.2 = PVal.arr [] := by
  induction filters with
  | nil => intro kv hkv; simp at hkv
  | cons hd tl ih =>
      rw [build_qdrant_conditions_cons] at h
      rcases hhd : hd.2 with s' | vs'
      · rw [hhd] at h
        exact absurd h (by simp)
      · rw [hhd] at h
        have happ := List.append_eq_nil.mp h
        have hvs : vs' = [] := by
          rcases vs' with _ | ⟨v, vs''⟩
          · rfl
          · exact absurd happ.1 (by simp)
        intro kv hkv
        rcases List.mem_cons.mp hkv with h1 | h2
        · rw [h1, hhd, hvs]
        · exact ih happ.2 kv h2

theorem qdrant_passes_implies_match {filters payload : PDict}
    (hne : ∀ kv ∈ filters, ∀ vs, kv.2 = PVal.arr vs → vs ≠ [])
    (hp : qdrant_filter_passes filters payload = true) :
    apply_filters filters payload = true := by
  rcases hb : build_qdrant_conditions filters with _ | ⟨c, cs⟩
  · rcases filters with _ | ⟨kv, rest⟩
    · exact apply_filters_nil payload
    · have := build_eq_nil hb kv (List.mem_cons_self _ _)
      exact absurd this (by simpa using hne kv (List.mem_cons_self _ _) [])
  · rw [qdrant_filter_passes, hb] at hp
    have hall : ∀ cond ∈ c :: cs,
        dict_get payload cond.1 = some (.scalar cond.2) := by
      intro cond hcond
      have := List.all_eq_true.mp hp cond hcond
      exact of_decide_eq_true this
    rw [apply_filters, List.all_eq_true]
    intro kv hkv
    rcases hkv2 : kv.2 with s | vs
    · have hc : (kv.1, s) ∈ build_qdrant_conditions filters := mem_build_scalar hkv hkv2
      rw [hb] at hc
      have hget := hall _ hc
      rw [hget]
      simp [hkv2]
    · have hvz : vs ≠ [] := hne kv hkv vs hkv2
      rcases vs with _ | ⟨v0, vs'⟩
      · exact absurd rfl hvz
      · have hc : (kv.1, v0) ∈ build_qdrant_conditions filters :=
          mem_build_arr hkv hkv2 (List.mem_cons_self _ _)
        rw [hb] at hc
        have hget := hall _ hc
        rw [hget]
        simp [hkv2]

theorem manager_op_local_fixed (op : ManagerOp) (ms : ManagerState)
    (h : ms.active = .faiss) : apply_manager_op ms op = ms := by
  have hne : ¬ ms.active = .qdrant := by rw [h]; intro hc; exact absurd hc (by simp)
  cases op with
  | search now q f =>
      simp only [apply_manager_op, manager_search, get_active_store, hne,
        if_neg hne, false_and, if_false]
      cases f <;> simp [hne]
  | hybrid now q f =>
      simp only [apply_manager_op, manager_hybrid_search, manager_search,
        get_active_store, hne, if_neg hne, false_and, if_false]
      cases f <;> simp [hne]
  | add now n r =>
      simp only [apply_manager_op, manager_add_documents, if_neg hne]
      cases r <;> simp

theorem manager_ops_local_fixed (ops : List ManagerOp) (ms : ManagerState)
    (h : ms.active = .faiss) : apply_manager_ops ops ms = ms := by
  induction ops with
  | nil => rfl
  | cons op ops' ih =>
      rw [apply_manager_ops, List.foldl_cons, manager_op_local_fixed op ms h]
      exact ih

theorem track_event_counters (event : CostEvent) (count : ℕ) (size_mb now : ℚ)
    (st : CostMonitorState) :
    (track_event event count size_mb now st).state.metrics.total_searches =
      (apply_cost_event event count size_mb st.metrics).total_searches
    ∧ (track_event event count size_mb now st).state.metrics.total_inserts =
      (apply_cost_event event count size_mb st.metrics).total_inserts
    ∧ (track_event event count size_mb now st).state.metrics.total_updates =
      (apply_cost_event event count size_mb st.metrics).total_updates
    ∧ (track_event event count size_mb now st).state.metrics.storage_mb =
      (apply_cost_event event count size_mb st.metrics).storage_mb := by
  rw [track_event]
  rcases check_thresholds (update_estimated_cost
      (apply_cost_event event count size_mb st.metrics) st.thresholds now)
      st.thresholds with _ | fire
  · exact ⟨rfl, rfl, rfl, rfl⟩
  · exact ⟨rfl, rfl, rfl, rfl⟩



theorem track_event_no_fallback {st : CostMonitorState} {event : CostEvent}
    {count : ℕ} {size_mb now : ℚ}
    (hmax : st.thresholds.max_monthly_cost ≠ 0)
    (hfb : ¬ st.thresholds.fallback_threshold ≤
      update_estimated_cost (apply_cost_event event count size_mb st.metrics)
        st.thresholds now / st.thresholds.max_monthly_cost) :
    (track_event event count size_mb now st).raised = false
    ∧ (track_event event count size_mb now st).fired ≠ some CostFire.fallback := by
  rw [track_event, check_thresholds, if_neg hmax]
  dsimp only
  rw [if_neg hfb]
  refine ⟨rfl, ?_⟩
  by_cases hw : st.thresholds.warning_threshold ≤
      update_estimated_cost (apply_cost_event event count size_mb st.metrics)
        st.thresholds now / st.thresholds.max_monthly_cost
  · rw [if_pos hw]
    simp
  · rw [if_neg hw]
    simp

theorem apply_cost_fire_no_fallback {fire : Option CostFire} {ms : ManagerState}
    (h : fire ≠ some CostFire.fallback) : apply_cost_fire fire ms = ms := by
  rcases fire with _ | f
  · rfl
  · rcases f
    · exact absurd rfl h
    · rfl

theorem manager_track_no_fallback {ms : ManagerState} {event : CostEvent}
    {count : ℕ} {now : ℚ}
    (hmax : ms.cost.thresholds.max_monthly_cost ≠ 0)
    (hfb : ¬ ms.cost.thresholds.fallback_threshold ≤
      update_estimated_cost (apply_cost_event event count 0 ms.cost.metrics)
        ms.cost.thresholds now / ms.cost.thresholds.max_monthly_cost) :
    (manager_track event count now ms).1.active = ms.active
    ∧ (manager_track event count now ms).1.fallback_reason = ms.fallback_reason
    ∧ (manager_track event count now ms).2 = false := by
  have h := @track_event_no_fallback ms.cost event count 0 now hmax hfb
  rw [manager_track, apply_cost_fire_no_fallback h.2]
  exact ⟨rfl, rfl, h.1⟩

/-! ### Claim theorems -/

/-- C1: re-adding the same document id is NOT idempotent on the FAISS
backend.  Evaluating FAISSStore.add_documents at the claim's own failing
input: adding doc1 then re-adding doc1 with new content leaves the
metadata store holding exactly the second content, but appends a second
vector, so get_stats().total_vectors rises from 1 to 2 where the claim
(and the interface contract of spec §4.2, which Qdrant honours via
upsert) requires it to stay 1. -/
theorem C1_faiss_readd_not_idempotent :
    faiss_total_vectors (faiss_add_documents [c1_doc_v1] faiss_empty) = 1
    ∧ faiss_total_vectors
        (faiss_add_documents [c1_doc_v2] (faiss_add_documents [c1_doc_v1] faiss_empty)) = 2
    ∧ dict_get (faiss_add_documents [c1_doc_v2]
        (faiss_add_documents [c1_doc_v1] faiss_empty)).metadata_store "doc1"
        = some c1_doc_v2 := by
  refine ⟨rfl, rfl, ?_⟩
  rfl

/-- C3 (amended): once the cost-fallback callback fires the active
backend is LOCAL, and the reason is COST_THRESHOLD provided the callback
fired while the active backend was REMOTE; the manager state is then a
fixed point of every subsequent search / hybrid_search / add_documents
call; force_backend(REMOTE, reason) succeeds exactly when the Qdrant
store object exists — Backend B's reported health is never consulted. -/
theorem C3_fallback_state_machine :
    (∀ ms : ManagerState, (on_cost_fallback ms).active = .faiss)
    ∧ (∀ ms : ManagerState, ms.active = .qdrant →
        (on_cost_fallback ms).fallback_reason = some .cost_threshold)
    ∧ (∀ (ops : List ManagerOp) (ms : ManagerState), ms.active = .faiss →
        apply_manager_ops ops ms = ms)
    ∧ (∀ (ms : ManagerState) (reason : String),
        (force_backend .qdrant reason ms).2 = true ↔ ms.qdrant_available = true) := by
  refine ⟨?_, ?_, ?_, ?_⟩
  · intro ms
    rw [on_cost_fallback]
    by_cases h : ms.active = .qdrant
    · rw [if_pos h]
    · rw [if_neg h]
      rcases ha : ms.active with _ | _
      · rfl
      · exact absurd ha h
  · intro ms h
    rw [on_cost_fallback, if_pos h]
  · exact fun ops ms h => manager_ops_local_fixed ops ms h
  · intro ms reason
    rw [force_backend]
    rcases hav : ms.qdrant_available with _ | _
    · simp [hav]
    · simp [hav]

/-- Witness for C3: a remote-active manager gets reason COST_THRESHOLD
from the callback, a local-active manager state is unchanged by a
search / hybrid / add sequence, and force_backend to Qdrant succeeds on
a state whose Qdrant reports unhealthy. -/
theorem C3_fallback_state_machine_witness :
    (ms_remote.active = .qdrant ∧ ms_local.active = .faiss
      ∧ ms_local.qdrant_healthy = false)
    ∧ ((on_cost_fallback ms_remote).fallback_reason = some .cost_threshold
      ∧ apply_manager_ops
          [.search 3600 none none, .hybrid 3600 none (some []), .add 3600 2 (some true)]
          ms_local = ms_local
      ∧ ((force_backend .qdrant "manual_override" ms_local).2 = true
          ↔ ms_local.qdrant_available = true)) :=
  ⟨⟨rfl, rfl, rfl⟩,
    ⟨C3_fallback_state_machine.2.1 ms_remote rfl,
     C3_fallback_state_machine.2.2.1 _ ms_local rfl,
     C3_fallback_state_machine.2.2.2 ms_local "manual_override"⟩⟩

/-- C3 counterexample: the claim as stated fails on two counts at
concrete inputs.  Firing the cost-fallback callback while the manager is
already LOCAL (reason None) leaves fallback_reason = None, not
COST_THRESHOLD; and force_backend(REMOTE, "manual_override") succeeds on
a state whose Backend B reports unhealthy (the code only checks that the
store object exists). -/
theorem C3_counterexample :
    ms_local.active = .faiss
    ∧ (on_cost_fallback ms_local).fallback_reason = none
    ∧ ms_local.qdrant_healthy = false
    ∧ (force_backend .qdrant "manual_override" ms_local).2 = true
    ∧ (force_backend .qdrant "manual_override" ms_local).1.active = .qdrant := by
  refine ⟨rfl, ?_, rfl, ?_, ?_⟩ <;> rfl

theorem track_event_estimate (event : CostEvent) (count : ℕ) (size_mb now : ℚ)
    (st : CostMonitorState) :
    (track_event event count size_mb now st).state.metrics.estimated_monthly_cost =
      update_estimated_cost (apply_cost_event event count size_mb st.metrics)
        st.thresholds now := by
  rw [track_event]
  rcases check_thresholds (update_estimated_cost
      (apply_cost_event event count size_mb st.metrics) st.thresholds now)
      st.thresholds with _ | fire
  · rfl
  · rfl

/-- C4 (amended): on ACTIVE=REMOTE with the Qdrant store present, if the
dispatched search raises then — provided the cost event tracked before
dispatch does not itself cross the fallback threshold (and the cost
check does not raise) — the manager retries the single call against
FAISS, returns FAISS's results, and the active backend and
fallback_reason are unchanged. -/
theorem C4_remote_failure_single_retry (ms : ManagerState) (now : ℚ)
    (rs : List SearchResult)
    (hq : ms.active = .qdrant) (hav : ms.qdrant_available = true)
    (hmax : ms.cost.thresholds.max_monthly_cost ≠ 0)
    (hfb : ¬ ms.cost.thresholds.fallback_threshold ≤
      update_estimated_cost (apply_cost_event .search 1 0 ms.cost.metrics)
        ms.cost.thresholds now / ms.cost.thresholds.max_monthly_cost) :
    (manager_search now none (some rs) ms).1 = rs
    ∧ (manager_search now none (some rs) ms).2.active = ms.active
    ∧ (manager_search now none (some rs) ms).2.fallback_reason = ms.fallback_reason := by
  have hmt := @manager_track_no_fallback ms CostEvent.search 1 now hmax hfb
  have hd : get_active_store ms = .qdrant := by
    rw [get_active_store, if_pos ⟨hq, hav⟩]
  rw [manager_search]
  simp only [hd, hq, hmt.2.2, if_pos rfl]
  simp [hq, hmt.1, hmt.2.1]

/-- Witness for C4: on the concrete remote-active manager ms_remote a
raising Qdrant call falls back to FAISS's answer and leaves the state
unchanged. -/
theorem C4_remote_failure_single_retry_witness :
    (ms_remote.active = .qdrant ∧ ms_remote.qdrant_available = true
      ∧ ms_remote.cost.thresholds.max_monthly_cost ≠ 0
      ∧ ¬ ms_remote.cost.thresholds.fallback_threshold ≤
          update_estimated_cost (apply_cost_event .search 1 0 ms_remote.cost.metrics)
            ms_remote.cost.thresholds 3600 / ms_remote.cost.thresholds.max_monthly_cost)
    ∧ ((manager_search 3600 none (some [faiss_answer]) ms_remote).1 = [faiss_answer]
      ∧ (manager_search 3600 none (some [faiss_answer]) ms_remote).2.active
          = ms_remote.active
      ∧ (manager_search 3600 none (some [faiss_answer]) ms_remote).2.fallback_reason
          = ms_remote.fallback_reason) :=
  ⟨⟨rfl, rfl, by norm_num [ms_remote, cm_quiet],
      by norm_num [update_estimated_cost, apply_cost_event, usage_multiplier,
        seconds_in_month, ms_remote, cm_quiet, metrics_zero, max_self]⟩,
    C4_remote_failure_single_retry ms_remote 3600 [faiss_answer] rfl rfl
      (by norm_num [ms_remote, cm_quiet])
      (by norm_num [update_estimated_cost, apply_cost_event, usage_multiplier,
        seconds_in_month, ms_remote, cm_quiet, metrics_zero, max_self])⟩

/-- C4 counterexample: the claim quantifies over every REMOTE-active
manager state, but when the cost event tracked for the call crosses the
fallback threshold (here fallback_threshold = 0), the callback switches
the manager to LOCAL mid-call, the except branch no longer sees
ACTIVE=REMOTE, so the FAISS retry is skipped: the caller gets an empty
list instead of FAISS's results, and active/fallback_reason change
during the call. -/
theorem C4_counterexample :
    ms_fire.active = .qdrant
    ∧ (manager_search 3600 none (some [faiss_answer]) ms_fire).1 = []
    ∧ (manager_search 3600 none (some [faiss_answer]) ms_fire).2.active = .faiss
    ∧ (manager_search 3600 none (some [faiss_answer]) ms_fire).2.fallback_reason
        = some .cost_threshold := by
  refine ⟨rfl, ?_⟩
  norm_num [manager_search, get_active_store, manager_track, track_event,
    check_thresholds, apply_cost_event, update_estimated_cost, usage_multiplier,
    seconds_in_month, apply_cost_fire, on_cost_fallback, ms_fire, cm_fire,
    metrics_zero, max_self]
  decide

/-- C2 (amended): all normalized scores lie in [0,1]; FAISS search
results are sorted non-increasing with scores in [0,1]; Qdrant search
scores lie in [0,1] (their order is the service's hit order — the code
does not re-sort, see the counterexample); hybrid combination results
are sorted non-increasing and lie in [0,1] provided the weights are
nonnegative with sum at most 1 and the fuzzy result list carries no
duplicate ids. -/
theorem C2_scores_normalized_and_sorted
    (b : VectorBackend) (s : ℚ) (st : FAISSState) (hits : List (ℚ × Int))
    (filters : PDict) (top_k : ℕ) (pts : List (String × ℚ × PDict))
    (sem fz : List SearchResult) (ws wf : ℚ)
    (hws : 0 ≤ ws) (hwf : 0 ≤ wf) (hsum : ws + wf ≤ 1)
    (hsem : ∀ r ∈ sem, 0 ≤ r.score ∧ r.score ≤ 1)
    (hfz : ∀ r ∈ fz, 0 ≤ r.score ∧ r.score ≤ 1)
    (hnd : (fz.map SearchResult.id).Nodup) :
    (0 ≤ normalize_score b s ∧ normalize_score b s ≤ 1)
    ∧ (faiss_search_results st hits filters top_k).Sorted score_ge
    ∧ (∀ r ∈ faiss_search_results st hits filters top_k, 0 ≤ r.score ∧ r.score ≤ 1)
    ∧ (∀ r ∈ qdrant_search_results pts filters, 0 ≤ r.score ∧ r.score ≤ 1)
    ∧ (combine_results sem fz ws wf).Sorted score_ge
    ∧ (∀ r ∈ combine_results sem fz ws wf, 0 ≤ r.score ∧ r.score ≤ 1) :=
  ⟨⟨normalize_score_nonneg b s, normalize_score_le_one b s⟩,
   faiss_search_sorted st hits filters top_k,
   fun _ hr => (faiss_search_mem hr).2,
   fun _ hr => (qdrant_search_mem hr).2,
   combine_results_sorted sem fz ws wf,
   combine_results_bound hws hwf hsum hsem hfz hnd⟩

/-- Witness for C2 at concrete inputs (default weights 0.7/0.3, a
one-element semantic list, empty fuzzy list). -/
theorem C2_scores_normalized_and_sorted_witness :
    ((0:ℚ) ≤ 7/10 ∧ (0:ℚ) ≤ 3/10 ∧ (7:ℚ)/10 + 3/10 ≤ 1
      ∧ (∀ r ∈ c2_sem, 0 ≤ r.score ∧ r.score ≤ 1)
      ∧ (∀ r ∈ ([] : List SearchResult), 0 ≤ r.score ∧ r.score ≤ 1)
      ∧ (([] : List SearchResult).map SearchResult.id).Nodup)
    ∧ ((0 ≤ normalize_score .faiss 5 ∧ normalize_score .faiss 5 ≤ 1)
      ∧ (faiss_search_results faiss_empty [] [] 0).Sorted score_ge
      ∧ (∀ r ∈ faiss_search_results faiss_empty [] [] 0, 0 ≤ r.score ∧ r.score ≤ 1)
      ∧ (∀ r ∈ qdrant_search_results [] [], 0 ≤ r.score ∧ r.score ≤ 1)
      ∧ (combine_results c2_sem [] (7/10) (3/10)).Sorted score_ge
      ∧ (∀ r ∈ combine_results c2_sem [] (7/10) (3/10), 0 ≤ r.score ∧ r.score ≤ 1)) :=
  ⟨⟨by norm_num, by norm_num, by norm_num, by norm_num [c2_sem], by simp, by simp⟩,
   C2_scores_normalized_and_sorted .faiss 5 faiss_empty [] [] 0 [] c2_sem []
     (7/10) (3/10) (by norm_num) (by norm_num) (by norm_num)
     (by norm_num [c2_sem]) (by simp) (by simp)⟩

/-- C2 counterexample: three concrete violations of the claim as stated.
With weights (2, 0) a combined score of 2 > 1 is returned; with the
default weights (0.7, 0.3) a fuzzy list repeating one id yields 1.3 > 1;
and a Qdrant plain search whose service returns cosine hits ordered by
similarity descending comes back with normalized scores in increasing
order, so the result order is not non-increasing. -/
theorem C2_counterexample :
    ((combine_results c2_sem [] 2 0).map SearchResult.score = [2]
      ∧ ¬ ((2:ℚ) ≤ 1))
    ∧ ((combine_results c2_sem c2_fuzzy (7/10) (3/10)).map SearchResult.score = [13/10]
      ∧ ¬ ((13:ℚ)/10 ≤ 1))
    ∧ ((qdrant_search_results c2_qpts []).map SearchResult.score = [1/10, 4/5]
      ∧ ¬ (qdrant_search_results c2_qpts []).Sorted score_ge) := by
  refine ⟨⟨?_, by norm_num⟩, ⟨?_, by norm_num⟩, ?_, ?_⟩
  · norm_num [combine_results, combine_sem_step, combine_fuzzy_step, dict_set,
      dict_get, sort_by_score_desc, List.insertionSort, List.orderedInsert, c2_sem]
  · norm_num [combine_results, combine_sem_step, combine_fuzzy_step, dict_set,
      dict_get, sort_by_score_desc, List.insertionSort, List.orderedInsert,
      c2_sem, c2_fuzzy]
  · norm_num [qdrant_search_results, qdrant_filter_passes, build_qdrant_conditions,
      normalize_score, c2_qpts]
  · norm_num [qdrant_search_results, qdrant_filter_passes, build_qdrant_conditions,
      normalize_score, c2_qpts, List.sorted_cons, score_ge]

/-- C5 (amended): a document is returned by a filtered FAISS search only
if it matches every filter entry (key present; equality for scalar
values, membership for set values); the same holds for a filtered Qdrant
search provided every set-of-values filter value is nonempty (an empty
list contributes no Qdrant condition, see the counterexample). -/
theorem C5_filter_match_soundness
    (st : FAISSState) (hits : List (ℚ × Int)) (filters : PDict) (top_k : ℕ)
    (pts : List (String × ℚ × PDict)) (r r' : SearchResult)
    (hr : r ∈ faiss_search_results st hits filters top_k)
    (hne : ∀ kv ∈ filters, ∀ vs, kv.2 = PVal.arr vs → vs ≠ [])
    (hr' : r' ∈ qdrant_search_results pts filters) :
    apply_filters filters r.metadata = true
    ∧ apply_filters filters r'.metadata = true :=
  ⟨(faiss_search_mem hr).1,
   qdrant_passes_implies_match hne (qdrant_search_mem hr').1⟩

/-- Witness for C5: a store holding one document in category "mesh",
searched with the scalar filter category = "mesh", on both backends. -/
theorem C5_filter_match_soundness_witness :
    (({ id := "d5", score := 1, metadata := c5_doc } : SearchResult)
        ∈ faiss_search_results (faiss_add_documents [c5_doc] faiss_empty)
            [(1, 0)] filters_mesh 1
      ∧ (∀ kv ∈ filters_mesh, ∀ vs, kv.2 = PVal.arr vs → vs ≠ [])
      ∧ ({ id := "d5", score := 0, metadata := c5_doc } : SearchResult)
          ∈ qdrant_search_results c5_qpts_match filters_mesh)
    ∧ (apply_filters filters_mesh
        ({ id := "d5", score := 1, metadata := c5_doc } : SearchResult).metadata = true
      ∧ apply_filters filters_mesh
        ({ id := "d5", score := 0, metadata := c5_doc } : SearchResult).metadata = true) :=
  ⟨⟨by decide,
    by
      intro kv hkv vs hvs
      simp [filters_mesh] at hkv
      subst hkv
      simp at hvs,
    by
      have hev : qdrant_search_results c5_qpts_match filters_mesh
          = [{ id := "d5", score := 0, metadata := c5_doc }] := by
        have h1 : dict_get c5_doc "category" = some (PVal.scalar (PScalar.str "mesh")) := by
          decide
        norm_num [qdrant_search_results, qdrant_filter_passes, build_qdrant_conditions,
          normalize_score, c5_qpts_match, filters_mesh, List.filter, h1]
      rw [hev]
      exact List.mem_singleton.mpr rfl⟩,
   C5_filter_match_soundness (faiss_add_documents [c5_doc] faiss_empty) [(1, 0)]
     filters_mesh 1 c5_qpts_match _ _
     (by decide)
     (by
       intro kv hkv vs hvs
       simp [filters_mesh] at hkv
       subst hkv
       simp at hvs)
     (by
       have hev : qdrant_search_results c5_qpts_match filters_mesh
           = [{ id := "d5", score := 0, metadata := c5_doc }] := by
         have h1 : dict_get c5_doc "category" = some (PVal.scalar (PScalar.str "mesh")) := by
           decide
         norm_num [qdrant_search_results, qdrant_filter_passes, build_qdrant_conditions,
           normalize_score, c5_qpts_match, filters_mesh, List.filter, h1]
       rw [hev]
       exact List.mem_singleton.mpr rfl)⟩

/-- C5 counterexample: with the filter map whose set of values is empty,
_build_qdrant_filter produces no condition at all, so a Qdrant search
returns a document whose payload lacks the filtered field — which the
claim's closed-world match condition rejects (membership in an empty
set is false, and the field is absent). -/
theorem C5_counterexample :
    qdrant_search_results c5_qpts filters_empty_arr
        = [{ id := "d1", score := 0, metadata := [] }]
    ∧ apply_filters filters_empty_arr [] = false := by
  constructor
  · norm_num [qdrant_search_results, qdrant_filter_passes, build_qdrant_conditions,
      filters_empty_arr, c5_qpts, normalize_score]
  · decide

/-- C6 (amended): after every track_event call the estimated monthly
cost equals the CUMULATIVE counters (all usage since the metrics were
last reset or loaded — not merely the usage observed since
last_updated), extrapolated by seconds_in_month / max(elapsed, 3600)
with elapsed measured since last_updated (multiplier 1 when
elapsed ≤ 0), each divided by 1000 and priced at the per-1k unit costs,
plus storage_mb / 1024 times the per-GB-month cost. -/
theorem C6_estimate_formula (event : CostEvent) (count : ℕ) (size_mb now : ℚ)
    (st : CostMonitorState) :
    (track_event event count size_mb now st).state.metrics.estimated_monthly_cost =
      ((apply_cost_event event count size_mb st.metrics).total_searches
          * usage_multiplier (now - st.metrics.last_updated) / 1000)
          * st.thresholds.search_cost_per_1k
        + ((apply_cost_event event count size_mb st.metrics).total_inserts
          * usage_multiplier (now - st.metrics.last_updated) / 1000)
          * st.thresholds.insert_cost_per_1k
        + ((apply_cost_event event count size_mb st.metrics).storage_mb / 1024)
          * st.thresholds.storage_cost_per_gb := by
  have h : (apply_cost_event event count size_mb st.metrics).last_updated
      = st.metrics.last_updated := by cases event <;> rfl
  rw [track_event_estimate, update_estimated_cost, h]

/-- C6 counterexample: tracking 5 searches at t=3600 and then 1 search
at t=7200 (each with a one-hour window, multiplier 720 and search unit
cost 1000 per 1k), the code's estimate after the second call is
6 × 720 = 4320 — the cumulative counter extrapolated — whereas the
usage observed since last_updated (the 1 search of the second call)
extrapolates to 720 as the claim's wording prescribes. -/
theorem C6_counterexample :
    (track_event .search 1 0 7200
        (track_event .search 5 0 3600 cm_c6).state).state.metrics.estimated_monthly_cost
      = 4320
    ∧ claimed_window_estimate 1 0 0 c6_thr 3600 = 720
    ∧ ((4320:ℚ) ≠ 720) := by
  refine ⟨?_, ?_, by norm_num⟩
  · norm_num [track_event, check_thresholds, apply_cost_event, update_estimated_cost,
      usage_multiplier, seconds_in_month, cm_c6, c6_thr, metrics_zero, max_self]
  · norm_num [claimed_window_estimate, seconds_in_month, max_self, c6_thr]

/-- C7: with ratio = estimated_monthly_cost / max_monthly_cost computed
after the counter update, ratio ≥ fallback_threshold invokes exactly the
registered fallback callbacks; warning_threshold ≤ ratio <
fallback_threshold invokes exactly the registered warning callbacks;
and — under the documented threshold invariant warning ≤ fallback —
ratio < warning_threshold invokes no callbacks. -/
theorem C7_threshold_callbacks (st : CostMonitorState) (event : CostEvent)
    (count : ℕ) (size_mb now : ℚ)
    (hmax : st.thresholds.max_monthly_cost ≠ 0) :
    ((st.thresholds.fallback_threshold ≤
        (track_event event count size_mb now st).state.metrics.estimated_monthly_cost
          / st.thresholds.max_monthly_cost →
      (track_event event count size_mb now st).fired = some CostFire.fallback
      ∧ (track_event event count size_mb now st).invoked = st.fallback_callbacks)
    ∧ (st.thresholds.warning_threshold ≤
        (track_event event count size_mb now st).state.metrics.estimated_monthly_cost
          / st.thresholds.max_monthly_cost
        ∧ (track_event event count size_mb now st).state.metrics.estimated_monthly_cost
          / st.thresholds.max_monthly_cost < st.thresholds.fallback_threshold →
      (track_event event count size_mb now st).fired = some CostFire.warning
      ∧ (track_event event count size_mb now st).invoked = st.warning_callbacks)
    ∧ (st.thresholds.warning_threshold ≤ st.thresholds.fallback_threshold →
        (track_event event count size_mb now st).state.metrics.estimated_monthly_cost
          / st.thresholds.max_monthly_cost < st.thresholds.warning_threshold →
      (track_event event count size_mb now st).fired = none
      ∧ (track_event event count size_mb now st).invoked = [])) := by
  simp only [track_event, check_thresholds, if_neg hmax]
  split_ifs with h1 h2
  · refine ⟨fun _ => ⟨rfl, rfl⟩, fun hc => absurd h1 (not_le.mpr hc.2), fun hwf hc => ?_⟩
    exact absurd (lt_of_le_of_lt (le_trans hwf h1) hc) (lt_irrefl _)
  · refine ⟨fun hc => absurd hc h1, fun _ => ⟨rfl, rfl⟩, fun _ hc => absurd hc (not_lt.mpr h2)⟩
  · refine ⟨fun hc => absurd hc h1, fun hc => absurd hc.1 h2, fun _ _ => ⟨rfl, rfl⟩⟩

/-- Witness for C7: the quiet monitor's max cost is nonzero and a search
tracked at t=3600 exercises the three-way case split. -/
theorem C7_threshold_callbacks_witness :
    cm_quiet.thresholds.max_monthly_cost ≠ 0
    ∧ (((cm_quiet.thresholds.fallback_threshold ≤
        (track_event .search 1 0 3600 cm_quiet).state.metrics.estimated_monthly_cost
          / cm_quiet.thresholds.max_monthly_cost →
      (track_event .search 1 0 3600 cm_quiet).fired = some CostFire.fallback
      ∧ (track_event .search 1 0 3600 cm_quiet).invoked = cm_quiet.fallback_callbacks)
    ∧ (cm_quiet.thresholds.warning_threshold ≤
        (track_event .search 1 0 3600 cm_quiet).state.metrics.estimated_monthly_cost
          / cm_quiet.thresholds.max_monthly_cost
        ∧ (track_event .search 1 0 3600 cm_quiet).state.metrics.estimated_monthly_cost
          / cm_quiet.thresholds.max_monthly_cost < cm_quiet.thresholds.fallback_threshold →
      (track_event .search 1 0 3600 cm_quiet).fired = some CostFire.warning
      ∧ (track_event .search 1 0 3600 cm_quiet).invoked = cm_quiet.warning_callbacks)
    ∧ (cm_quiet.thresholds.warning_threshold ≤ cm_quiet.thresholds.fallback_threshold →
        (track_event .search 1 0 3600 cm_quiet).state.metrics.estimated_monthly_cost
          / cm_quiet.thresholds.max_monthly_cost < cm_quiet.thresholds.warning_threshold →
      (track_event .search 1 0 3600 cm_quiet).fired = none
      ∧ (track_event .search 1 0 3600 cm_quiet).invoked = []))) :=
  ⟨by norm_num [cm_quiet],
   C7_threshold_callbacks cm_quiet .search 1 0 3600 (by norm_num [cm_quiet])⟩

/-- C8 (amended): the three operation counters never decrease across any
track_event call, and reset_metrics zeroes everything; but storage_mb is
assigned (not accumulated) by each STORAGE event, so it is not a
monotone counter — see the counterexample. -/
theorem C8_counters_monotone_reset_zeroes :
    (∀ (event : CostEvent) (count : ℕ) (size_mb now : ℚ) (st : CostMonitorState),
      st.metrics.total_searches
        ≤ (track_event event count size_mb now st).state.metrics.total_searches
      ∧ st.metrics.total_inserts
        ≤ (track_event event count size_mb now st).state.metrics.total_inserts
      ∧ st.metrics.total_updates
        ≤ (track_event event count size_mb now st).state.metrics.total_updates)
    ∧ (∀ (count : ℕ) (size_mb now : ℚ) (st : CostMonitorState),
        (track_event .storage count size_mb now st).state.metrics.storage_mb = size_mb)
    ∧ (∀ (now : ℚ) (st : CostMonitorState),
        (reset_metrics now st).metrics.total_searches = 0
        ∧ (reset_metrics now st).metrics.total_inserts = 0
        ∧ (reset_metrics now st).metrics.total_updates = 0
        ∧ (reset_metrics now st).metrics.storage_mb = 0
        ∧ (reset_metrics now st).metrics.estimated_monthly_cost = 0) := by
  refine ⟨?_, ?_, ?_⟩
  · intro event count size_mb now st
    have h := track_event_counters event count size_mb now st
    rw [h.1, h.2.1, h.2.2.1]
    cases event <;> simp [apply_cost_event]
  · intro count size_mb now st
    rw [(track_event_counters .storage count size_mb now st).2.2.2]
    rfl
  · intro now st
    exact ⟨rfl, rfl, rfl, rfl, rfl⟩

/-- C8 counterexample: a STORAGE event with a smaller size decreases the
storage_mb field of the metrics with no reset involved — refuting the
claim that every CostMetrics counter is non-decreasing across
track_event calls. -/
theorem C8_counterexample :
    (track_event .storage 1 1 3600 cm_storage2).state.metrics.storage_mb = 1
    ∧ cm_storage2.metrics.storage_mb = 2
    ∧ ¬ ((2:ℚ) ≤ 1) := by
  refine ⟨?_, rfl, by norm_num⟩
  rw [(track_event_counters .storage 1 1 3600 cm_storage2).2.2.2]
  rfl

/-- C9 (amended): when both backends' calls raise, the manager's search
returns a plain empty list — a value indistinguishable from an ordinary
empty result, with no accompanying diagnostic; the unhealthy condition
is surfaced only by the separate health_check, which reports status
unhealthy whenever neither backend is healthy. -/
theorem C9_double_failure_plain_empty :
    (∀ (now : ℚ) (ms : ManagerState), (manager_search now none none ms).1 = [])
    ∧ (∀ a : VectorBackend, health_check_status a false false = .unhealthy) := by
  constructor
  · intro now ms
    have hnn : (if get_active_store ms = .qdrant then (none : Option (List SearchResult))
        else none) = none := by split <;> rfl
    have hif : ∀ ms1 : ManagerState,
        ((if ms1.active = .qdrant then (((none : Option (List SearchResult))).getD [], ms1)
          else ([], ms1)) : List SearchResult × ManagerState) = ([], ms1) := by
      intro ms1
      split <;> rfl
    rw [manager_search]
    simp only [hnn, hif]
    repeat' split
    all_goals rfl
  · intro a
    cases a <;> rfl

/-- C9 counterexample: on a concrete remote-active manager, the call in
which both backends raise produces exactly the same value — result list
and post-state — as a call in which the active backend successfully
returns zero results: the double failure is a silent plain empty list,
not a distinguishable hard failure. -/
theorem C9_counterexample :
    manager_search 3600 none none ms_remote
      = manager_search 3600 (some []) none ms_remote := by
  rw [manager_search, manager_search]
  have hd : get_active_store ms_remote = .qdrant := by
    rw [get_active_store]
    exact if_pos ⟨rfl, rfl⟩
  have hif : ∀ ms1 : ManagerState,
      ((if ms1.active = .qdrant then (((none : Option (List SearchResult))).getD [], ms1)
        else ([], ms1)) : List SearchResult × ManagerState) = ([], ms1) := by
    intro ms1
    split <;> rfl
  rw [hd]
  simp only [hif]
  split <;> rfl

/-- C10: the threshold check and the cost summary divide by
max_monthly_cost with no zero guard: track_event raises (ZeroDivisionError
escaping, since callback and persistence errors are caught internally)
exactly when max_monthly_cost = 0, and get_cost_summary returns a value
exactly when max_monthly_cost ≠ 0. -/
theorem C10_zero_division_guard (st : CostMonitorState) (event : CostEvent)
    (count : ℕ) (size_mb now : ℚ) :
    ((track_event event count size_mb now st).raised = true
      ↔ st.thresholds.max_monthly_cost = 0)
    ∧ ((get_cost_summary st).isSome = true
      ↔ ¬ st.thresholds.max_monthly_cost = 0) := by
  constructor
  · rw [track_event, check_thresholds]
    by_cases hm : st.thresholds.max_monthly_cost = 0
    · rw [if_pos hm]
      simp [hm]
    · rw [if_neg hm]
      simp [hm]
  · rw [get_cost_summary]
    by_cases hm : st.thresholds.max_monthly_cost = 0
    · rw [if_pos hm]
      simp [hm]
    · rw [if_neg hm]
      simp [hm]
